import Mathlib

/-!
Shallow embedding of the `notjustmoney/errors` Go library.

The library defines a structured error type `Error` (a record of optional
attributes plus a `cause` link `err error`), an `ErrorBuilder` (the same
record used as an immutable fluent builder) and chain-resolving accessors.

Modelling conventions:
* Go `*string` fields become `Option String`; `nil` slices/maps become `[]`.
* `time.Time` becomes `Nat` with `0` playing the role of Go's zero time
  (`IsZero`), matching the code's explicit `t.IsZero()` checks.
* `uuid.NewString()` and `time.Now()` are external effects; they are modelled
  by threading an explicit fresh-name counter / clock value through the
  operations that call them.
* Stack traces are opaque for the properties at hand: a capture is modelled by
  the token passed at the capture site (`Option Nat`, `none` = nil slice).
* A Go `error` value reachable from a node's `err` field is either a foreign
  error (a sentinel, a `fmt.Errorf` result with or without `%w`, an
  `errors.Join` aggregate) or another `*Error` node; this is the inductive
  `GoErr`.  A nil `error` interface is `Option GoErr`'s `none`.
-/

namespace GoErrors

/-- Field model of `QuotaViolation` (part_003). -/
structure QuotaViolation where
  subject : String
  description : String
  deriving DecidableEq, Repr

/-- Field model of `PreconditionViolation` (part_003). -/
structure PreconditionViolation where
  type : String
  subject : String
  description : String
  deriving DecidableEq, Repr

/-- Field model of `FieldViolation` (part_003). -/
structure FieldViolation where
  field : String
  description : String
  deriving DecidableEq, Repr

/-- Field model of `Help` (part_003). -/
structure Help where
  description : String
  url : String
  deriving DecidableEq, Repr

/-- Field model of `Resource` (part_003). -/
structure Resource where
  type : String
  name : String
  owner : String
  description : String
  deriving DecidableEq, Repr

/-- Field model of `Localization` (part_003). -/
structure Localization where
  locale : String
  message : String
  deriving DecidableEq, Repr

/-- Field model of `Retry` (part_003); `delay` is a `time.Duration` in ns. -/
structure Retry where
  delay : Int
  deriving DecidableEq, Repr

/-- All fields of the Go `Error` struct except the cause link `err`.
Mirrors `type Error struct` in error.go, field for field. -/
structure Fields where
  message : Option String
  reason : Option String
  domain : Option String
  metadata : List (String × String)
  quotaViolations : List QuotaViolation
  preconditionViolations : List PreconditionViolation
  fieldViolations : List FieldViolation
  userID : Option String
  tenantID : Option String
  trace : Option String
  span : Option String
  requestID : Option String
  tags : List String
  time : Nat
  help : Help
  resource : Resource
  localizations : List Localization
  retry : Retry
  stackTrace : Option Nat
  deriving DecidableEq, Repr

/-- A Go `error` interface value reachable in a cause chain:
a sentinel foreign error, a `fmt.Errorf` result without `%w`, a
`fmt.Errorf` result with one `%w` argument (`msg` is the full interpolated
text), an `errors.Join` aggregate of its non-nil arguments, or a library
`*Error` node (its fields plus its own optional cause). -/
inductive GoErr where
  | sentinel (id : Nat) (msg : String)
  | fmtPlain (msg : String)
  | fmtWrap (msg : String) (inner : GoErr)
  | joined (errs : List GoErr)
  | node (f : Fields) (cause : Option GoErr)
  deriving Repr

mutual

/-- `errors.As(g, &child)` for target type `*Error`: the standard-library
traversal that returns the first `*Error` found, unwrapping single-`Unwrap`
errors and searching `Unwrap() []error` aggregates depth-first. -/
def asError : GoErr → Option GoErr
  | .node f c => some (.node f c)
  | .fmtWrap _ inner => asError inner
  | .joined es => asErrorList es
  | .fmtPlain _ => none
  | .sentinel _ _ => none

/-- Depth-first `errors.As` search over the children of an aggregate. -/
def asErrorList : List GoErr → Option GoErr
  | [] => none
  | e :: rest =>
    match asError e with
    | some r => some r
    | none => asErrorList rest

end

mutual

theorem asError_sizeOf (g : GoErr) :
    ∀ g', asError g = some g' → sizeOf g' ≤ sizeOf g := by
  intro g' h
  cases g with
  | node f c =>
    simp only [asError] at h
    cases h
    exact le_refl _
  | fmtWrap m inner =>
    simp only [asError] at h
    have := asError_sizeOf inner g' h
    simp only [GoErr.fmtWrap.sizeOf_spec]
    omega
  | joined es =>
    simp only [asError] at h
    have := asErrorList_sizeOf es g' h
    simp only [GoErr.joined.sizeOf_spec]
    omega
  | fmtPlain m => simp [asError] at h
  | sentinel i m => simp [asError] at h

theorem asErrorList_sizeOf (es : List GoErr) :
    ∀ g', asErrorList es = some g' → sizeOf g' ≤ sizeOf es := by
  intro g' h
  cases es with
  | nil => simp [asErrorList] at h
  | cons e rest =>
    simp only [asErrorList] at h
    cases he : asError e with
    | some r =>
      rw [he] at h
      cases h
      have := asError_sizeOf e g' he
      simp only [List.cons.sizeOf_spec]
      omega
    | none =>
      rw [he] at h
      have := asErrorList_sizeOf rest g' h
      simp only [List.cons.sizeOf_spec]
      omega

end

/-- `recursiveAttr` (part_002): resolve a single attribute over a chain.
The Go code takes a non-nil `*Error` receiver (fields `f`, cause `c`): if the
cause is nil, return the receiver's own attribute; if `errors.As` finds an
`*Error` in the cause, recurse into it; otherwise (foreign-only cause) return
the receiver's own attribute.  Note: it never tests whether the attribute is
set — it unconditionally returns the attribute of the innermost node. -/
def recAttr {α : Type} (attr : Fields → α) : Fields → Option GoErr → α
  | f, none => attr f
  | f, some cg =>
    match h : asError cg with
    | some (.node f' c') => recAttr attr f' c'
    | some (.sentinel _ _) => attr f
    | some (.fmtPlain _) => attr f
    | some (.fmtWrap _ _) => attr f
    | some (.joined _) => attr f
    | none => attr f
termination_by f c => sizeOf c
decreasing_by
  have hle := asError_sizeOf cg _ h
  simp only [GoErr.node.sizeOf_spec] at hle
  simp only [Option.some.sizeOf_spec]
  omega

/-- The Go `Error` / `ErrorBuilder` value: the cause link plus the other
fields.  `type ErrorBuilder Error` makes the builder the same record. -/
structure EValue where
  err : Option GoErr
  f : Fields
  deriving Repr

/-- The zero `Fields` record (all pointers nil, slices nil, structs empty). -/
def zeroFields : Fields :=
  { message := none, reason := none, domain := none, metadata := []
    quotaViolations := [], preconditionViolations := [], fieldViolations := []
    userID := none, tenantID := none
    trace := none, span := none, requestID := none, tags := [], time := 0
    help := ⟨"", ""⟩, resource := ⟨"", "", "", ""⟩, localizations := []
    retry := ⟨0⟩, stackTrace := none }

/-- `newBuilder()` (part_000): every field nil/zero except `time: time.Now()`;
`now` is the clock reading at the call. -/
def newBuilder (now : Nat) : EValue :=
  { err := none, f := { zeroFields with time := now } }

/-- Go map assignment `m[k] = v` on the contents of a `map[string]string`,
viewed as an association list: replace the binding if the key exists,
otherwise add it. -/
def mapSet : List (String × String) → String → String → List (String × String)
  | [], k, v => [(k, v)]
  | (k', v') :: rest, k, v =>
    if k' = k then (k, v) :: rest else (k', v') :: mapSet rest k v

/-- `ErrorBuilder.Reason` (part_000): value receiver, sets `reason`. -/
def bReason (e : EValue) (reason : String) : EValue :=
  { e with f := { e.f with reason := some reason } }

/-- `ErrorBuilder.Domain` (part_000). -/
def bDomain (e : EValue) (domain : String) : EValue :=
  { e with f := { e.f with domain := some domain } }

/-- `ErrorBuilder.WithMetadata` (part_000), contents view: allocate the map if
nil, then assign `metadata[key] = value`.  (The Go map is shared by reference
between builder copies; that aliasing is modelled separately below — this
definition tracks the observable contents reachable from the result.) -/
def bWithMetadata (e : EValue) (key value : String) : EValue :=
  { e with f := { e.f with metadata := mapSet e.f.metadata key value } }

/-- `ErrorBuilder.WithQuotaViolation` (part_000): append. -/
def bWithQuotaViolation (e : EValue) (subject description : String) : EValue :=
  { e with f := { e.f with quotaViolations :=
      e.f.quotaViolations ++ [⟨subject, description⟩] } }

/-- `ErrorBuilder.WithPreconditionViolation` (part_000): append. -/
def bWithPreconditionViolation (e : EValue) (subject description : String) :
    EValue :=
  { e with f := { e.f with preconditionViolations :=
      e.f.preconditionViolations ++ [⟨"", subject, description⟩] } }

/-- `ErrorBuilder.WithFieldViolation` (part_000): append. -/
def bWithFieldViolation (e : EValue) (field description : String) : EValue :=
  { e with f := { e.f with fieldViolations :=
      e.f.fieldViolations ++ [⟨field, description⟩] } }

/-- `ErrorBuilder.UserID` (part_000). -/
def bUserID (e : EValue) (userID : String) : EValue :=
  { e with f := { e.f with userID := some userID } }

/-- `ErrorBuilder.TenantID` (part_000). -/
def bTenantID (e : EValue) (tenantID : String) : EValue :=
  { e with f := { e.f with tenantID := some tenantID } }

/-- `ErrorBuilder.Trace` (part_000). -/
def bTrace (e : EValue) (trace : String) : EValue :=
  { e with f := { e.f with trace := some trace } }

/-- `ErrorBuilder.Span` (part_000). -/
def bSpan (e : EValue) (span : String) : EValue :=
  { e with f := { e.f with span := some span } }

/-- `ErrorBuilder.RequestID` (part_000). -/
def bRequestID (e : EValue) (requestID : String) : EValue :=
  { e with f := { e.f with requestID := some requestID } }

/-- `ErrorBuilder.WithTag` (part_000): append. -/
def bWithTag (e : EValue) (tag : String) : EValue :=
  { e with f := { e.f with tags := e.f.tags ++ [tag] } }

/-- `ErrorBuilder.Help` (part_000). -/
def bHelp (e : EValue) (help : Help) : EValue :=
  { e with f := { e.f with help := help } }

/-- `ErrorBuilder.Resource` (part_000). -/
def bResource (e : EValue) (resource : Resource) : EValue :=
  { e with f := { e.f with resource := resource } }

/-- `ErrorBuilder.WithLocalization` (part_000): append. -/
def bWithLocalization (e : EValue) (l : Localization) : EValue :=
  { e with f := { e.f with localizations := e.f.localizations ++ [l] } }

/-- `ErrorBuilder.Retry` (part_000). -/
def bRetry (e : EValue) (retry : Retry) : EValue :=
  { e with f := { e.f with retry := retry } }

/-- `ErrorBuilder.deepCopy` (part_000).  The Go struct literal copies `err`,
`message`, `reason`, `domain`, `metadata`, the three violation slices,
`userID`, `tenantID`, `trace`, `span`, `tags`, `help`, `resource`,
`localizations`, `retry`, and sets `stackTrace: nil`; it does NOT mention
`requestID` or `time`, so those get Go's zero values (nil pointer / zero
time). -/
def deepCopy (e : EValue) : EValue :=
  { err := e.err
    f := { message := e.f.message
           reason := e.f.reason
           domain := e.f.domain
           metadata := e.f.metadata
           quotaViolations := e.f.quotaViolations
           preconditionViolations := e.f.preconditionViolations
           fieldViolations := e.f.fieldViolations
           userID := e.f.userID
           tenantID := e.f.tenantID
           trace := e.f.trace
           span := e.f.span
           requestID := none
           tags := e.f.tags
           time := 0
           help := e.f.help
           resource := e.f.resource
           localizations := e.f.localizations
           retry := e.f.retry
           stackTrace := none } }

/-- `(*Error)(…)` view of a builder value as an error node. -/
def toNode (e : EValue) : GoErr := .node e.f e.err

/-- `ErrorBuilder.Error` (part_000): deep-copy, set the message, capture a
fresh stack (token `st`). -/
def bError (e : EValue) (message : String) (st : Nat) : GoErr :=
  let e2 := deepCopy e
  toNode { e2 with f := { e2.f with message := some message
                                    stackTrace := some st } }

/-- `ErrorBuilder.Errorf` (part_000): deep-copy, set `err` to the
`fmt.Errorf(format, args...)` result (passed in as `fmtResult`, since
formatting is external), capture a fresh stack.  Note it sets the CAUSE
field, not `message`. -/
def bErrorf (e : EValue) (fmtResult : GoErr) (st : Nat) : GoErr :=
  let e2 := deepCopy e
  toNode { e2 with err := some fmtResult
                   f := { e2.f with stackTrace := some st } }

/-- `ErrorBuilder.wrap` (part_000): nil in, nil out; otherwise deep-copy, set
the cause, assign a fresh span identifier (`fresh`, the `uuid.NewString()`
result) if none was set, capture a fresh stack. -/
def wrapNonNil (e : EValue) (ge : GoErr) (fresh : String) (st : Nat) : EValue :=
  let e2 := deepCopy e
  let e2 := { e2 with err := some ge }
  let e2 :=
    if e2.f.span = none
    then { e2 with f := { e2.f with span := some fresh } }
    else e2
  { e2 with f := { e2.f with stackTrace := some st } }

/-- `ErrorBuilder.Wrap` (part_000): `wrap` then cast to `*Error` (nil stays
nil). -/
def bWrap (e : EValue) (err : Option GoErr) (fresh : String) (st : Nat) :
    Option GoErr :=
  (err.map (fun ge => wrapNonNil e ge fresh st)).map toNode

/-- `ErrorBuilder.Wrapf` (part_000): `wrap`, and on a non-nil result set the
message to the `fmt.Errorf(format, args...).Error()` text (`fmtMsg`). -/
def bWrapf (e : EValue) (err : Option GoErr) (fmtMsg : String) (fresh : String)
    (st : Nat) : Option GoErr :=
  (err.map (fun ge =>
    let e2 := wrapNonNil e ge fresh st
    { e2 with f := { e2.f with message := some fmtMsg } })).map toNode

/-- `errors.Join(errs...)` of the standard library: drop nil arguments; if
none remain the result is nil, otherwise a `*joinError` aggregate of the
non-nil ones in order. -/
def goJoin (errs : List (Option GoErr)) : Option GoErr :=
  match errs.filterMap id with
  | [] => none
  | es => some (.joined es)

/-- `ErrorBuilder.Join` (part_000): `e.Wrap(errors.Join(errs...))`. -/
def bJoin (e : EValue) (errs : List (Option GoErr)) (fresh : String)
    (st : Nat) : Option GoErr :=
  bWrap e (goJoin errs) fresh st

/-- `Error.Message()` (error.go): chain-resolved via `recursiveAttr`. -/
def eMessage (f : Fields) (c : Option GoErr) : Option String :=
  recAttr (fun g => g.message) f c

/-- `Error.Reason()` (error.go). -/
def eReason (f : Fields) (c : Option GoErr) : Option String :=
  recAttr (fun g => g.reason) f c

/-- `Error.Domain()` (error.go). -/
def eDomain (f : Fields) (c : Option GoErr) : Option String :=
  recAttr (fun g => g.domain) f c

/-- `Error.Metadata()` (error.go). -/
def eMetadata (f : Fields) (c : Option GoErr) : List (String × String) :=
  recAttr (fun g => g.metadata) f c

/-- `Error.QuotaViolations()` (error.go). -/
def eQuotaViolations (f : Fields) (c : Option GoErr) : List QuotaViolation :=
  recAttr (fun g => g.quotaViolations) f c

/-- `Error.PreconditionViolations()` (error.go). -/
def ePreconditionViolations (f : Fields) (c : Option GoErr) :
    List PreconditionViolation :=
  recAttr (fun g => g.preconditionViolations) f c

/-- `Error.FieldViolations()` (error.go). -/
def eFieldViolations (f : Fields) (c : Option GoErr) : List FieldViolation :=
  recAttr (fun g => g.fieldViolations) f c

/-- `Error.Help()` (error.go). -/
def eHelp (f : Fields) (c : Option GoErr) : Help :=
  recAttr (fun g => g.help) f c

/-- `Error.Resource()` (error.go). -/
def eResource (f : Fields) (c : Option GoErr) : Resource :=
  recAttr (fun g => g.resource) f c

/-- `Error.Localizations()` (error.go). -/
def eLocalizations (f : Fields) (c : Option GoErr) : List Localization :=
  recAttr (fun g => g.localizations) f c

/-- `Error.Retry()` (error.go). -/
def eRetry (f : Fields) (c : Option GoErr) : Retry :=
  recAttr (fun g => g.retry) f c

/-- `Error.Span()` (error.go): reads only the receiver's own field, no chain
traversal. -/
def eSpan (f : Fields) (_c : Option GoErr) : Option String :=
  f.span

/-- `Error.RequestID()` (error.go): reads only the receiver's own field. -/
def eRequestID (f : Fields) (_c : Option GoErr) : Option String :=
  f.requestID

/-- `recursive` (part_002) specialised to the `Error.Tags()` tap: visit the
receiver, then—if `errors.As` finds an `*Error` in the cause—recurse,
appending each visited node's own `tags` outward-to-inward. -/
def collectTags : Fields → Option GoErr → List String
  | f, none => f.tags
  | f, some cg =>
    match h : asError cg with
    | some (.node f' c') => f.tags ++ collectTags f' c'
    | some (.sentinel _ _) => f.tags
    | some (.fmtPlain _) => f.tags
    | some (.fmtWrap _ _) => f.tags
    | some (.joined _) => f.tags
    | none => f.tags
termination_by f c => sizeOf c
decreasing_by
  have hle := asError_sizeOf cg _ h
  simp only [GoErr.node.sizeOf_spec] at hle
  simp only [Option.some.sizeOf_spec]
  omega

/-- `lo.Uniq`: deduplicate keeping the first occurrence of each element, in
first-seen order (`seen` is the set of already-emitted elements). -/
def uniqAux (seen : List String) : List String → List String
  | [] => []
  | x :: xs =>
    if x ∈ seen then uniqAux seen xs else x :: uniqAux (x :: seen) xs

/-- `lo.Uniq` with an empty seen set. -/
def loUniq (l : List String) : List String := uniqAux [] l

/-- `Error.Tags()` (error.go): aggregate all chain tags, then `lo.Uniq`. -/
def eTags (f : Fields) (c : Option GoErr) : List String :=
  loUniq (collectTags f c)

/-- `uuid.NewString()` modelled as a deterministic fresh-name stream. -/
def mkUuid (n : Nat) : String := "uuid-" ++ toString n

/-- `Error.Trace()` (error.go): chain-resolve `trace`; if absent, generate a
fresh identifier, cache it on the RECEIVER's `trace` field (`e.trace =
&traceID`), and return it.  Returns the value, the receiver's updated fields,
and the next fresh counter. -/
def traceRead (f : Fields) (c : Option GoErr) (n : Nat) :
    String × Fields × Nat :=
  match recAttr (fun g => g.trace) f c with
  | some t => (t, f, n)
  | none => (mkUuid n, { f with trace := some (mkUuid n) }, n + 1)

/-- `Error.Time()` (error.go): chain-resolve `time`; if it is the zero time,
take `time.Now()` (the `now` argument), cache it on the receiver's `time`
field, and return it. -/
def timeRead (f : Fields) (c : Option GoErr) (now : Nat) : Nat × Fields :=
  let t := recAttr (fun g => g.time) f c
  if t = 0 then (now, { f with time := now }) else (t, f)

mutual

/-- Structural equality of Go error values, modelling Go's `==` comparison
between comparable error values (sentinels compare by identity, modelled by
their `id`; for pointer-typed errors structural equality of the model stands
in for pointer identity). -/
def goEq : GoErr → GoErr → Bool
  | .sentinel i m, .sentinel j n => i == j && m == n
  | .fmtPlain m, .fmtPlain n => m == n
  | .fmtWrap m a, .fmtWrap n b => m == n && goEq a b
  | .joined xs, .joined ys => goEqList xs ys
  | .node f c, .node g d => f == g && goEqOpt c d
  | _, _ => false

/-- Pointwise equality of aggregate children. -/
def goEqList : List GoErr → List GoErr → Bool
  | [], [] => true
  | x :: xs, y :: ys => goEq x y && goEqList xs ys
  | _, _ => false

/-- Equality of optional cause links. -/
def goEqOpt : Option GoErr → Option GoErr → Bool
  | none, none => true
  | some a, some b => goEq a b
  | _, _ => false

end

mutual

/-- `errors.Is(err, target)` of the standard library, combined with
`Error.Is` (error.go): compare for equality; on a `fmt` `%w` wrapper recurse
into the wrapped error; on a join recurse into every child; on a library node
`e.Is(target)` is `errors.Is(e.err, target) || e == target`, and the
standard-library loop then unwraps into `e.err`, which together give
`e == target || Is(e.err, target)`. -/
def goIs : GoErr → GoErr → Bool
  | .sentinel i m, t => goEq (.sentinel i m) t
  | .fmtPlain m, t => goEq (.fmtPlain m) t
  | .fmtWrap m inner, t => goEq (.fmtWrap m inner) t || goIs inner t
  | .joined es, t => goEq (.joined es) t || goIsList es t
  | .node f c, t =>
    goEq (.node f c) t ||
      match c with
      | none => false
      | some cg => goIs cg t

/-- `errors.Is` over the children of an aggregate: true if any child
matches. -/
def goIsList : List GoErr → GoErr → Bool
  | [], _ => false
  | e :: rest, t => goIs e t || goIsList rest t

end

/-- `errors.Is` where the first argument may be the nil interface (a nil
error never matches a non-nil target). -/
def goIsOpt : Option GoErr → GoErr → Bool
  | none, _ => false
  | some g, t => goIs g t

mutual

/-- `Error() string` of each error value: sentinels and `fmt` errors return
their message (for a `%w` wrapper, `msg` already is the full interpolated
text); a join returns its children's messages joined by newlines; a library
node (error.go `Error()`) writes its message, then `": "` when both message
and cause exist, then the cause's own text. -/
def goErrorStr : GoErr → String
  | .sentinel _ m => m
  | .fmtPlain m => m
  | .fmtWrap m _ => m
  | .joined es => String.intercalate "\n" (goErrorStrList es)
  | .node f c =>
    (match f.message with
     | some m => m ++ (match c with | some _ => ": " | none => "")
     | none => "") ++
    (match c with
     | some cg => goErrorStr cg
     | none => "")

/-- The rendered messages of an aggregate's children, in order. -/
def goErrorStrList : List GoErr → List String
  | [] => []
  | e :: rest => goErrorStr e :: goErrorStrList rest

end

/-- The "message" entry of `Error.LogValue()` (error.go):
`if message := e.Message(); message != nil { slog.String("message",
*e.message) }` — the guard tests the CHAIN-RESOLVED message but the emitted
value dereferences the receiver's OWN `e.message` pointer; a nil own pointer
is a nil-pointer dereference (modelled as `Except.error`). -/
def logValueMessage (f : Fields) (c : Option GoErr) :
    Except String (Option String) :=
  match eMessage f c with
  | none => .ok none
  | some _ =>
    match f.message with
    | some m => .ok (some m)
    | none => .error "runtime error: invalid memory address or nil pointer dereference"

/-- `Error.Span()` called on a possibly-nil `*Error` receiver: the body
`return e.span` dereferences the receiver, so a nil receiver panics
(modelled as `Except.error`); a non-nil receiver returns its own field. -/
def spanOnRef : Option EValue → Except String (Option String)
  | none => .error "runtime error: invalid memory address or nil pointer dereference"
  | some e => .ok e.f.span

/-- A chain of library nodes linked through `err`: `mkChain f fs` is the
outermost node with fields `f`, wrapping the nodes with fields `fs` in order
(the last element of `f :: fs` is the innermost node). -/
def mkChain : Fields → List Fields → GoErr
  | f, [] => .node f none
  | f, g :: rest => .node f (some (mkChain g rest))

/-- The cause link of `mkChain`'s outermost node. -/
def mkCause : List Fields → Option GoErr
  | [] => none
  | g :: rest => some (mkChain g rest)

theorem mkChain_eq (f : Fields) (fs : List Fields) :
    mkChain f fs = .node f (mkCause fs) := by
  cases fs <;> rfl

theorem asError_mkChain (f : Fields) (fs : List Fields) :
    asError (mkChain f fs) = some (mkChain f fs) := by
  cases fs <;> rfl

theorem recAttr_mkCause {α : Type} (attr : Fields → α) :
    ∀ (fs : List Fields) (f : Fields),
      recAttr attr f (mkCause fs) = attr (fs.getLastD f) := by
  intro fs
  induction fs with
  | nil =>
    intro f
    show recAttr attr f none = attr f
    rw [recAttr]
  | cons g rest ih =>
    intro f
    rw [List.getLastD_cons]
    show recAttr attr f (some (mkChain g rest)) = attr (rest.getLastD g)
    rw [recAttr]
    rw [mkChain_eq g rest]
    simp only [asError]
    exact ih g

theorem collectTags_mkCause :
    ∀ (fs : List Fields) (f : Fields),
      collectTags f (mkCause fs) = ((f :: fs).map Fields.tags).flatten := by
  intro fs
  induction fs with
  | nil => intro f; simp [mkCause, collectTags]
  | cons g rest ih =>
    intro f
    show collectTags f (some (mkChain g rest)) = _
    rw [collectTags]
    rw [mkChain_eq g rest]
    simp only [asError]
    rw [ih g]
    simp

theorem uniqAux_not_mem_seen (seen : List String) (l : List String) :
    ∀ x ∈ uniqAux seen l, x ∉ seen := by
  induction l generalizing seen with
  | nil => intro x hx; simp [uniqAux] at hx
  | cons a as ih =>
    intro x hx
    rw [uniqAux] at hx
    by_cases ha : a ∈ seen
    · rw [if_pos ha] at hx
      exact ih seen x hx
    · rw [if_neg ha] at hx
      rcases List.mem_cons.mp hx with h | h
      · subst h; exact ha
      · have := ih (a :: seen) x h
        intro hmem
        exact this (List.mem_cons_of_mem a hmem)

theorem uniqAux_nodup (seen : List String) (l : List String) :
    (uniqAux seen l).Nodup := by
  induction l generalizing seen with
  | nil => simp [uniqAux]
  | cons a as ih =>
    rw [uniqAux]
    by_cases ha : a ∈ seen
    · rw [if_pos ha]; exact ih seen
    · rw [if_neg ha]
      refine List.nodup_cons.mpr ⟨?_, ih (a :: seen)⟩
      intro hmem
      have := uniqAux_not_mem_seen (a :: seen) as a hmem
      exact this (List.mem_cons_self a seen)

theorem loUniq_nodup (l : List String) : (loUniq l).Nodup :=
  uniqAux_nodup [] l

/-- ### Aliasing model of the builder's metadata map

Go maps are reference values: copying an `ErrorBuilder` by value copies the
map header, not the contents, so two builder values can share one map.  The
aliasing-relevant state is modelled explicitly: a heap of map contents and,
in place of the builder's `metadata` field, an optional reference into that
heap (`none` = nil map).  All other `ErrorBuilder` fields are value-typed or
freshly-pointed by their setters and cannot alias, so they are not repeated
here. -/
structure MHeap where
  cells : List (List (String × String))
  deriving Repr

/-- The builder's `metadata` field under reference semantics. -/
structure BRef where
  metadata : Option Nat
  deriving Repr

/-- A fresh builder's metadata field (`nil` map). -/
def newBRef : BRef := { metadata := none }

/-- `ErrorBuilder.WithMetadata` (part_000) under Go map reference semantics:
the receiver is a by-value copy of the caller's builder (sharing the map
reference); if the map is nil a fresh empty map is allocated and assigned,
then `e.metadata[key] = value` mutates the referenced map in place. -/
def withMetadataRef (h : MHeap) (b : BRef) (key value : String) :
    MHeap × BRef :=
  match b.metadata with
  | none =>
    ({ cells := h.cells ++ [mapSet [] key value] },
     { metadata := some h.cells.length })
  | some r =>
    ({ cells := h.cells.set r (mapSet (h.cells.getD r []) key value) }, b)

/-- The observable contents of a builder value's metadata map in a heap. -/
def observeMeta (h : MHeap) (b : BRef) : List (String × String) :=
  match b.metadata with
  | none => []
  | some r => h.cells.getD r []

/-- Concrete example fields: an inner node that sets `span` and `requestID`
(used to exhibit that the outer accessors do not traverse to it). -/
def fSpanInner : Fields :=
  { zeroFields with span := some "s-inner", requestID := some "rq-inner" }

/-- The empty heap (no maps allocated). -/
def mhEmpty : MHeap := ⟨[]⟩

/-- First step of the aliasing scenario: a fresh one-shot builder receives
`WithMetadata("a", "1")` (the Go package-level `WithMetadata` call). -/
def metaStep1 : MHeap × BRef := withMetadataRef mhEmpty newBRef "a" "1"

/-- Second step: `WithMetadata("b", "2")` called on the first step's
result. -/
def metaStep2 : MHeap × BRef :=
  withMetadataRef metaStep1.1 metaStep1.2 "b" "2"

/-- Concrete example fields: an inner node whose only set attribute is the
message "inner". -/
def fInnerMsg : Fields := { zeroFields with message := some "inner" }

/-- The fields of a library node (`none` on a foreign error, on which the
`Error` methods are not defined). -/
def ownFields : GoErr → Option Fields
  | .node f _ => some f
  | _ => none

/-- The cause link of a library node. -/
def ownCause : GoErr → Option (Option GoErr)
  | .node _ c => some c
  | _ => none

/-- `Error.Message()` as a function of a node value (foreign receiver is
impossible in Go; it yields the nil-receiver zero value here). -/
def nMessage : GoErr → Option String
  | .node f c => eMessage f c
  | _ => none

/-- `Error.Span()` as a function of a node value. -/
def nSpan : GoErr → Option String
  | .node f c => eSpan f c
  | _ => none

/-- `Error.RequestID()` as a function of a node value. -/
def nRequestID : GoErr → Option String
  | .node f c => eRequestID f c
  | _ => none

/-- `Error.Tags()` as a function of a node value. -/
def nTags : GoErr → List String
  | .node f c => eTags f c
  | _ => []

theorem wrapNonNil_err (b : EValue) (ge : GoErr) (fresh : String) (st : Nat) :
    (wrapNonNil b ge fresh st).err = some ge := by
  by_cases h : (deepCopy b).f.span = none <;> simp [wrapNonNil, h]

theorem wrapNonNil_span_none (b : EValue) (ge : GoErr) (fresh : String)
    (st : Nat) (h : b.f.span = none) :
    (wrapNonNil b ge fresh st).f.span = some fresh := by
  unfold wrapNonNil deepCopy
  simp [h]

theorem wrapNonNil_requestID (b : EValue) (ge : GoErr) (fresh : String)
    (st : Nat) : (wrapNonNil b ge fresh st).f.requestID = none := by
  simp only [wrapNonNil, deepCopy]
  split <;> rfl

theorem goEq_node_sentinel (f : Fields) (c : Option GoErr) (i : Nat)
    (m : String) : goEq (.node f c) (.sentinel i m) = false :=
  rfl

theorem goEq_joined_sentinel (es : List GoErr) (i : Nat) (m : String) :
    goEq (.joined es) (.sentinel i m) = false :=
  rfl

theorem goIs_sentinel_self (i : Nat) (m : String) :
    goIs (.sentinel i m) (.sentinel i m) = true := by
  rw [goIs, goEq]
  simp

theorem goIsList_of_mem (l : List GoErr) (t x : GoErr) (hx : x ∈ l)
    (h : goIs x t = true) : goIsList l t = true := by
  induction l with
  | nil => cases hx
  | cons a as ih =>
    rw [goIsList]
    rcases List.mem_cons.mp hx with rfl | hmem
    · rw [h]; rfl
    · rw [ih hmem]
      simp

theorem goIs_node (f : Fields) (c : Option GoErr) (t : GoErr) :
    goIs (.node f c) t = (goEq (.node f c) t || goIsOpt c t) := by
  cases c with
  | none => rw [goIs]; rfl
  | some cg => rw [goIs]; rfl

theorem goJoin_all_none (errs : List (Option GoErr))
    (h : ∀ x ∈ errs, x = none) : goJoin errs = none := by
  unfold goJoin
  have hfm : errs.filterMap id = [] := by
    rw [List.filterMap_eq_nil_iff]
    intro a ha
    exact h a ha
  rw [hfm]

theorem goJoin_mem (errs : List (Option GoErr)) (s : GoErr)
    (h : some s ∈ errs) :
    ∃ l, goJoin errs = some (.joined l) ∧ s ∈ l := by
  have hmem : s ∈ errs.filterMap id := by
    rw [List.mem_filterMap]
    exact ⟨some s, h, rfl⟩
  unfold goJoin
  cases hl : errs.filterMap id with
  | nil => rw [hl] at hmem; cases hmem
  | cons a as =>
    refine ⟨a :: as, rfl, ?_⟩
    rw [hl] at hmem
    exact hmem

theorem recAttr_none {α : Type} (attr : Fields → α) (f : Fields) :
    recAttr attr f none = attr f := by
  rw [recAttr]

theorem recAttr_some_none {α : Type} (attr : Fields → α) (f : Fields)
    (cg : GoErr) (h : asError cg = none) :
    recAttr attr f (some cg) = attr f := by
  rw [recAttr]
  split <;> simp_all

theorem recAttr_some_node {α : Type} (attr : Fields → α) (f f' : Fields)
    (cg : GoErr) (c' : Option GoErr) (h : asError cg = some (.node f' c')) :
    recAttr attr f (some cg) = recAttr attr f' c' := by
  rw [recAttr]
  split <;> simp_all

theorem goEq_fmtWrap_sentinel (fm : String) (inner : GoErr) (i : Nat)
    (m : String) : goEq (.fmtWrap fm inner) (.sentinel i m) = false :=
  rfl

theorem goErrorStr_node_cause (f : Fields) (cg : GoErr)
    (h : f.message = none) :
    goErrorStr (.node f (some cg)) = goErrorStr cg := by
  rw [goErrorStr, h]
  simp

end GoErrors

namespace GoErrors

/-- **C1.**  Amended: reading a chain-resolved scalar attribute (reason,
domain, metadata, the violation lists, the guidance structs) from the
outermost node returns the innermost library node's own value of that
attribute, whether or not that node (or any node) set it; in particular for a
chain A wraps B wraps C where only C sets `reason`, reading `reason` from A
returns C's value — but an attribute set only on an outer node is invisible,
because `recursiveAttr` never tests whether the attribute is set. -/
theorem C1_innermost_unconditional :
    (∀ (f : Fields) (fs : List Fields),
      eReason f (mkCause fs) = (fs.getLastD f).reason) ∧
    (∀ (f : Fields) (fs : List Fields),
      eDomain f (mkCause fs) = (fs.getLastD f).domain) ∧
    (∀ (f : Fields) (fs : List Fields),
      eMetadata f (mkCause fs) = (fs.getLastD f).metadata) ∧
    (∀ (f : Fields) (fs : List Fields),
      eQuotaViolations f (mkCause fs) = (fs.getLastD f).quotaViolations) ∧
    (∀ (f : Fields) (fs : List Fields),
      ePreconditionViolations f (mkCause fs) =
        (fs.getLastD f).preconditionViolations) ∧
    (∀ (f : Fields) (fs : List Fields),
      eFieldViolations f (mkCause fs) = (fs.getLastD f).fieldViolations) ∧
    (∀ (f : Fields) (fs : List Fields),
      eHelp f (mkCause fs) = (fs.getLastD f).help) ∧
    (∀ (f : Fields) (fs : List Fields),
      eResource f (mkCause fs) = (fs.getLastD f).resource) ∧
    (∀ (f : Fields) (fs : List Fields),
      eLocalizations f (mkCause fs) = (fs.getLastD f).localizations) ∧
    (∀ (f : Fields) (fs : List Fields),
      eRetry f (mkCause fs) = (fs.getLastD f).retry) ∧
    (∀ (fA fB fC : Fields),
      eReason fA (mkCause [fB, fC]) = fC.reason) :=
  ⟨fun f fs => recAttr_mkCause _ fs f,
   fun f fs => recAttr_mkCause _ fs f,
   fun f fs => recAttr_mkCause _ fs f,
   fun f fs => recAttr_mkCause _ fs f,
   fun f fs => recAttr_mkCause _ fs f,
   fun f fs => recAttr_mkCause _ fs f,
   fun f fs => recAttr_mkCause _ fs f,
   fun f fs => recAttr_mkCause _ fs f,
   fun f fs => recAttr_mkCause _ fs f,
   fun f fs => recAttr_mkCause _ fs f,
   fun fA fB fC => recAttr_mkCause _ [fB, fC] fA⟩

/-- **C1, counterexample.**  In the chain A wraps C where only the outermost
node A sets `reason` (to "ra"), the claim predicts that reading `reason` from
A returns "ra" (the innermost node that has it set is A itself); the code
returns the innermost node C's unset `reason`, i.e. `none`. -/
theorem C1_counterexample :
    eReason { zeroFields with reason := some "ra" }
        (mkCause [zeroFields]) = none ∧
    (Fields.reason { zeroFields with reason := some "ra" } = some "ra") ∧
    zeroFields.reason = none := by
  refine ⟨?_, rfl, rfl⟩
  rw [eReason, recAttr_mkCause]
  rfl

/-- **C6.**  Wrapping a nil error yields nil for every builder configuration:
`Wrap(nil)`, `Wrapf(nil, …)`, and `Join` of only nil errors all return the
nil error. -/
theorem C6_wrap_nil_is_nil (b : EValue) (fresh fmtMsg : String) (st : Nat)
    (errs : List (Option GoErr)) :
    bWrap b none fresh st = none ∧
    bWrapf b none fmtMsg fresh st = none ∧
    ((∀ x ∈ errs, x = none) → bJoin b errs fresh st = none) := by
  refine ⟨rfl, rfl, ?_⟩
  intro h
  unfold bJoin
  rw [goJoin_all_none errs h]
  rfl

/-- **C6, witness.**  The theorem instantiated at a concrete builder and a
concrete all-nil argument list. -/
theorem C6_wrap_nil_is_nil_witness :
    bWrap (newBuilder 0) none "u" 1 = none ∧
    bWrapf (newBuilder 0) none "m" "u" 1 = none ∧
    bJoin (newBuilder 0) [none, none] "u" 1 = none := by
  have h := C6_wrap_nil_is_nil (newBuilder 0) "u" "m" 1 [none, none]
  exact ⟨h.1, h.2.1, h.2.2 (by simp)⟩

/-- **C9.**  Tags aggregation: reading tags from the outermost node of any
chain concatenates every node's tag sequence outward-to-inward and
deduplicates keeping first-seen order; with tags `["x"]` on the outer node
and `["y"]` on the inner node the result is exactly `["x", "y"]`, and with
`"x"` also on the inner node there is no duplicate. -/
theorem C9_tags_aggregation :
    (∀ (f : Fields) (fs : List Fields),
      eTags f (mkCause fs) = loUniq (((f :: fs).map Fields.tags).flatten)) ∧
    (∀ (f : Fields) (fs : List Fields), (eTags f (mkCause fs)).Nodup) ∧
    eTags { zeroFields with tags := ["x"] }
      (mkCause [{ zeroFields with tags := ["y"] }]) = ["x", "y"] ∧
    eTags { zeroFields with tags := ["x"] }
      (mkCause [{ zeroFields with tags := ["x", "y"] }]) = ["x", "y"] := by
  refine ⟨?_, ?_, ?_, ?_⟩
  · intro f fs
    rw [eTags, collectTags_mkCause]
  · intro f fs
    exact loUniq_nodup _
  · rw [eTags, collectTags_mkCause]
    rfl
  · rw [eTags, collectTags_mkCause]
    rfl

/-- **C10.**  Amended: the span and requestID accessors read only the
receiving (outermost) node's own field and never traverse the cause chain —
the read is independent of the inner node's fields — but the outermost node
of a wrap-built chain always carries its own span (a fresh identifier is
assigned at wrap time when the builder set none), so the span read returns
that fresh value rather than the absent value; the requestID read returns the
absent value (the terminal deep copy drops `requestID`). -/
theorem C10_span_requestID_own_field (b : EValue) (innerF : Fields)
    (fresh : String) (st : Nat) (hspan : b.f.span = none) :
    (bWrap b (some (.node innerF none)) fresh st).map nSpan =
      some (some fresh) ∧
    (bWrap b (some (.node innerF none)) fresh st).map nRequestID =
      some none := by
  constructor
  · show some (nSpan (toNode (wrapNonNil b (.node innerF none) fresh st))) = _
    rw [toNode]
    rw [nSpan]
    rw [eSpan, wrapNonNil_span_none b _ fresh st hspan]
  · show some (nRequestID (toNode (wrapNonNil b (.node innerF none) fresh st)))
        = _
    rw [toNode]
    rw [nRequestID]
    rw [eRequestID, wrapNonNil_requestID]

/-- **C10, witness.**  The amended theorem at a concrete builder (span unset)
and a concrete inner node whose span and requestID are both set. -/
theorem C10_span_requestID_own_field_witness :
    (bWrap (newBuilder 0) (some (.node fSpanInner none)) "u0" 7).map nSpan
      = some (some "u0") ∧
    (bWrap (newBuilder 0) (some (.node fSpanInner none)) "u0" 7).map
        nRequestID = some none :=
  C10_span_requestID_own_field (newBuilder 0) fSpanInner "u0" 7 rfl

/-- **C10, counterexample.**  With span `"s-inner"` and requestID
`"rq-inner"` set only on the inner node (the outer builder set neither), the
claim predicts that reading span on the outer node returns the absent value;
the code returns the outer node's own freshly assigned span identifier
`"u0"`, not the absent value. -/
theorem C10_counterexample :
    (bWrap (newBuilder 0) (some (.node fSpanInner none)) "u0" 7).map nSpan
      = some (some "u0") ∧
    ¬ ((bWrap (newBuilder 0) (some (.node fSpanInner none)) "u0" 7).map nSpan
      = some none) := by
  constructor
  · rfl
  · intro h
    rw [show (bWrap (newBuilder 0) (some (.node fSpanInner none)) "u0" 7).map
          nSpan = some (some "u0") from rfl] at h
    simp at h

/-- **C7.**  For every builder configuration, an error built by wrapping a
sentinel foreign error `s` — directly via `Wrap(s)`, via `Errorf` with a
`%w`-style argument `s`, or via `Join` of several errors including `s` —
satisfies the `errors.Is` identity check against `s`. -/
theorem C7_is_wrapped_sentinel (b : EValue) (i : Nat) (m fm fresh : String)
    (st : Nat) (errs : List (Option GoErr))
    (hmem : some (GoErr.sentinel i m) ∈ errs) :
    goIsOpt (bWrap b (some (.sentinel i m)) fresh st) (.sentinel i m) = true ∧
    goIs (bErrorf b (.fmtWrap fm (.sentinel i m)) st) (.sentinel i m) = true ∧
    goIsOpt (bJoin b errs fresh st) (.sentinel i m) = true := by
  refine ⟨?_, ?_, ?_⟩
  · show goIs (toNode (wrapNonNil b (.sentinel i m) fresh st))
      (.sentinel i m) = true
    rw [toNode, goIs_node, goEq_node_sentinel, wrapNonNil_err]
    show (false || goIsOpt (some (.sentinel i m)) (.sentinel i m)) = true
    rw [goIsOpt, goIs_sentinel_self]
    rfl
  · show goIs (toNode _) (.sentinel i m) = true
    rw [toNode, goIs_node, goEq_node_sentinel]
    show (false || goIsOpt (some (.fmtWrap fm (.sentinel i m)))
      (.sentinel i m)) = true
    rw [goIsOpt, goIs, goEq_fmtWrap_sentinel, goIs_sentinel_self]
    rfl
  · obtain ⟨l, hj, hmem'⟩ := goJoin_mem errs (.sentinel i m) hmem
    unfold bJoin
    rw [hj]
    show goIs (toNode (wrapNonNil b (.joined l) fresh st))
      (.sentinel i m) = true
    rw [toNode, goIs_node, goEq_node_sentinel, wrapNonNil_err]
    show (false || goIsOpt (some (.joined l)) (.sentinel i m)) = true
    rw [goIsOpt, goIs, goEq_joined_sentinel,
      goIsList_of_mem l (.sentinel i m) (.sentinel i m) hmem'
        (goIs_sentinel_self i m)]
    rfl

/-- **C7, witness.**  The theorem at a concrete builder and the sentinel
`sentinel 1 "boom"`, with the join argument list containing the sentinel. -/
theorem C7_is_wrapped_sentinel_witness :
    goIsOpt (bWrap (newBuilder 0) (some (.sentinel 1 "boom")) "u" 3)
      (.sentinel 1 "boom") = true ∧
    goIs (bErrorf (newBuilder 0) (.fmtWrap "fmt: boom" (.sentinel 1 "boom")) 3)
      (.sentinel 1 "boom") = true ∧
    goIsOpt (bJoin (newBuilder 0) [some (.sentinel 1 "boom"), none] "u" 3)
      (.sentinel 1 "boom") = true :=
  C7_is_wrapped_sentinel (newBuilder 0) 1 "boom" "fmt: boom" "u" 3
    [some (.sentinel 1 "boom"), none] (by simp)

/-- **C8.**  Amended: `Errorf` deep-copies the builder and captures a fresh
stack like `build`, but it stores the formatted `fmt.Errorf` result in the
node's CAUSE field (`err`), not in `message`: the node has a cause, the
`Message()` accessor returns the absent value (for a builder with no message
set), while the rendered `Error()` text equals the formatted string; and when
an argument is wrapped `%w`-style the identity check against that foreign
error succeeds. -/
theorem C8_errorf_amended (b : EValue) (fm : String) (i : Nat) (sm : String)
    (st : Nat) (hmsg : b.f.message = none) :
    ownCause (bErrorf b (.fmtWrap fm (.sentinel i sm)) st) =
      some (some (.fmtWrap fm (.sentinel i sm))) ∧
    (ownFields (bErrorf b (.fmtWrap fm (.sentinel i sm)) st)).map
      Fields.stackTrace = some (some st) ∧
    nMessage (bErrorf b (.fmtWrap fm (.sentinel i sm)) st) = none ∧
    goErrorStr (bErrorf b (.fmtWrap fm (.sentinel i sm)) st) = fm ∧
    goIs (bErrorf b (.fmtWrap fm (.sentinel i sm)) st) (.sentinel i sm) =
      true := by
  have hm : (Fields.message
      { (deepCopy b).f with stackTrace := some st }) = none := by
    simp [deepCopy, hmsg]
  refine ⟨rfl, rfl, ?_, ?_, ?_⟩
  · show eMessage { (deepCopy b).f with stackTrace := some st }
      (some (.fmtWrap fm (.sentinel i sm))) = none
    rw [eMessage, recAttr_some_none (fun g => g.message) _
      (.fmtWrap fm (.sentinel i sm)) rfl]
    exact hm
  · show goErrorStr (.node { (deepCopy b).f with stackTrace := some st }
      (some (.fmtWrap fm (.sentinel i sm)))) = fm
    rw [goErrorStr_node_cause _ _ hm]
    rfl
  · show goIs (toNode _) (.sentinel i sm) = true
    rw [toNode, goIs_node, goEq_node_sentinel]
    show (false || goIsOpt (some (.fmtWrap fm (.sentinel i sm)))
      (.sentinel i sm)) = true
    rw [goIsOpt, goIs, goEq_fmtWrap_sentinel, goIs_sentinel_self]
    rfl

/-- **C8, witness.**  The amended theorem at a concrete fresh builder and
`fmt.Errorf("fmt: %w", sentinel 1 "boom")`. -/
theorem C8_errorf_amended_witness :
    ownCause (bErrorf (newBuilder 0)
        (.fmtWrap "fmt: boom" (.sentinel 1 "boom")) 3) =
      some (some (.fmtWrap "fmt: boom" (.sentinel 1 "boom"))) ∧
    (ownFields (bErrorf (newBuilder 0)
        (.fmtWrap "fmt: boom" (.sentinel 1 "boom")) 3)).map
      Fields.stackTrace = some (some 3) ∧
    nMessage (bErrorf (newBuilder 0)
        (.fmtWrap "fmt: boom" (.sentinel 1 "boom")) 3) = none ∧
    goErrorStr (bErrorf (newBuilder 0)
        (.fmtWrap "fmt: boom" (.sentinel 1 "boom")) 3) = "fmt: boom" ∧
    goIs (bErrorf (newBuilder 0)
        (.fmtWrap "fmt: boom" (.sentinel 1 "boom")) 3)
      (.sentinel 1 "boom") = true :=
  C8_errorf_amended (newBuilder 0) "fmt: boom" 1 "boom" 3 rfl

/-- **C8, counterexample.**  `Errorf` with no `%w` argument (plain formatted
text "boom"): the claim predicts a node with no cause whose `Message()`
accessor returns the formatted string; the code produces a node whose cause
is the formatted foreign error and whose `Message()` accessor returns the
absent value (the formatted text only appears in the `Error()` rendering). -/
theorem C8_counterexample :
    bErrorf (newBuilder 0) (.fmtPlain "boom") 3 =
      GoErr.node { zeroFields with stackTrace := some 3 }
        (some (.fmtPlain "boom")) ∧
    nMessage (bErrorf (newBuilder 0) (.fmtPlain "boom") 3) = none ∧
    goErrorStr (bErrorf (newBuilder 0) (.fmtPlain "boom") 3) = "boom" := by
  refine ⟨rfl, ?_, rfl⟩
  show eMessage { zeroFields with stackTrace := some 3 }
    (some (.fmtPlain "boom")) = none
  rw [eMessage, recAttr_some_none (fun g => g.message) _
    (.fmtPlain "boom") rfl]
  rfl

/-- **C2.**  Evaluation of the metadata-aliasing defect: starting from a
fresh builder, `b1 := WithMetadata("a","1")` observably holds
`{"a": "1"}`; the later `b2 := b1.WithMetadata("b","2")` mutates the map that
`b1` still references, so afterwards `b1`'s observable metadata has gained
the key `"b"` — contradicting the claim that a setter never alters the
observable contents of a builder produced by an earlier call.  (`b2` is even
the same reference as `b1`.) -/
theorem C2_metadata_shared_mutation :
    observeMeta metaStep1.1 metaStep1.2 = [("a", "1")] ∧
    observeMeta metaStep2.1 metaStep1.2 = [("a", "1"), ("b", "2")] ∧
    metaStep2.2 = metaStep1.2 := by
  exact ⟨rfl, rfl, rfl⟩

/-- **C3.**  Evaluation of the trace-caching defect: on a node that wraps an
inner library node where no node set `trace`, the first `Trace()` read
generates `"uuid-0"` and caches it on the outer node, but the second read
resolves `trace` from the innermost node again (where it is still absent)
and generates a different identifier `"uuid-1"`, overwriting the cache — the
trace field transitions twice and the two reads disagree.  On a
non-wrapping node the cache does work (last conjunct). -/
theorem C3_trace_regenerated_on_chain :
    traceRead zeroFields (some (.node zeroFields none)) 0 =
      ("uuid-0", { zeroFields with trace := some "uuid-0" }, 1) ∧
    traceRead { zeroFields with trace := some "uuid-0" }
        (some (.node zeroFields none)) 1 =
      ("uuid-1", { zeroFields with trace := some "uuid-1" }, 2) ∧
    ("uuid-0" : String) ≠ "uuid-1" ∧
    traceRead { zeroFields with trace := some "uuid-0" } none 1 =
      ("uuid-0", { zeroFields with trace := some "uuid-0" }, 1) := by
  have ha : ∀ f : Fields,
      recAttr (fun g => g.trace) f (some (.node zeroFields none)) = none := by
    intro f
    rw [recAttr_some_node (fun g => g.trace) f zeroFields
      (.node zeroFields none) none rfl]
    rw [recAttr_none]
    rfl
  refine ⟨?_, ?_, by decide, ?_⟩
  · rw [traceRead, ha]
    rfl
  · rw [traceRead, ha]
    rfl
  · rw [traceRead, recAttr_none]

/-- **C4.**  Evaluation of the accessor-totality defects: the structured log
view's message entry panics (nil-pointer dereference) on a node whose own
message is unset while an inner node's message is set — the guard tests the
chain-resolved `Message()` but the emitted value dereferences the receiver's
own nil `message` pointer; and `Span()` on a nil error value panics instead
of returning the absent value.  The chain-resolved message itself is present
(last conjunct), which is what arms the faulty guard. -/
theorem C4_accessors_panic :
    logValueMessage zeroFields (some (.node fInnerMsg none)) =
      .error "runtime error: invalid memory address or nil pointer dereference" ∧
    spanOnRef none =
      .error "runtime error: invalid memory address or nil pointer dereference" ∧
    eMessage zeroFields (some (.node fInnerMsg none)) = some "inner" := by
  have hm : eMessage zeroFields (some (.node fInnerMsg none)) =
      some "inner" := by
    rw [eMessage, recAttr_some_node (fun g => g.message) zeroFields fInnerMsg
      (.node fInnerMsg none) none rfl]
    rw [recAttr_none]
    rfl
  refine ⟨?_, rfl, hm⟩
  rw [logValueMessage, hm]
  rfl

/-- **C5.**  Evaluation of the round-trip defect: a requestID set on the
builder is present on the builder value, but the terminal operation's deep
copy omits `requestID` (and `time`), so the built node's requestID reads back
absent and its stored creation time is the zero time; `Time()` on the built
node then returns the first-read clock value (42), not the builder
construction time (5). -/
theorem C5_requestID_time_dropped :
    (bRequestID (newBuilder 5) "r1").f.requestID = some "r1" ∧
    (ownFields (bError (bRequestID (newBuilder 5) "r1") "m" 9)).map
      Fields.requestID = some none ∧
    (ownFields (bError (bRequestID (newBuilder 5) "r1") "m" 9)).map
      Fields.time = some 0 ∧
    (timeRead { zeroFields with message := some "m", stackTrace := some 9 }
      none 42).1 = 42 ∧
    bError (bRequestID (newBuilder 5) "r1") "m" 9 =
      .node { zeroFields with message := some "m", stackTrace := some 9 }
        none := by
  refine ⟨rfl, rfl, rfl, ?_, rfl⟩
  rw [timeRead, recAttr_none]
  rfl

end GoErrors
